import Mathlib

/-!
Verification of the ComponentSpec validation layer of `tfx`.

The repository ships the test file `tfx/types/component_spec_test.py`
for the `ComponentSpec` abstraction, but not `component_spec.py` itself.
The validator is therefore modelled from the specification (section 4.1
of the spec), staying faithful to the behaviour that the test file
exercises: descriptor definition checks (abstract-class completeness,
spec-value kinds, duplicate names), keyword-argument resolution
(type-checking parameters and channels, required/optional handling,
proto-to-string serialization) and compatibility-alias lookup.
-/

namespace TFX

/-- A split of an `example_gen_pb2.Input` proto: a (name, pattern) pair. -/
structure Split where
  name : String
  pattern : String
deriving DecidableEq

/-- Modelled from the spec: the structured (proto-like) parameter value
`example_gen_pb2.Input`, a message holding a list of splits. -/
structure ProtoInput where
  splits : List Split
deriving DecidableEq

/-- Length-prefixed encoding of a character list: `s.length` copies of
`'#'`, a `':'` separator, then the characters themselves. -/
def encStr (s : List Char) : List Char :=
  List.replicate s.length '#' ++ ':' :: s

/-- Decode one length-prefixed string, returning the value and the rest
of the input. -/
def decStr (l : List Char) : Option (List Char × List Char) :=
  let n := (l.takeWhile (· == '#')).length
  match l.drop n with
  | ':' :: rest => if n ≤ rest.length then some (rest.take n, rest.drop n) else none
  | _ => none

/-- Encoding of one split: its name then its pattern, each length-prefixed. -/
def encSplit (s : Split) : List Char :=
  encStr s.name.data ++ encStr s.pattern.data

/-- Encoding of a list of splits, one after the other. -/
def encSplits : List Split → List Char
  | [] => []
  | s :: rest => encSplit s ++ encSplits rest

/-- Decode `n` consecutive splits. -/
def decSplits : Nat → List Char → Option (List Split × List Char)
  | 0, l => some ([], l)
  | n + 1, l =>
    match decStr l with
    | none => none
    | some (nm, l1) =>
      match decStr l1 with
      | none => none
      | some (pt, l2) =>
        match decSplits n l2 with
        | none => none
        | some (ss, l3) => some (⟨⟨nm⟩, ⟨pt⟩⟩ :: ss, l3)

/-- Modelled from the spec: the canonical string form of a structured
parameter value ("serialize it to a canonical string form"), as a
deterministic length-prefixed rendering of its fields. -/
def encodeProto (p : ProtoInput) : String :=
  ⟨List.replicate p.splits.length '*' ++ '|' :: encSplits p.splits⟩

/-- Modelled from the spec: decoding of the canonical string form back
into the structured value. -/
def decodeProto (s : String) : Option ProtoInput :=
  let l := s.data
  let n := (l.takeWhile (· == '*')).length
  match l.drop n with
  | '|' :: rest =>
    match decSplits n rest with
    | some (ss, []) => some ⟨ss⟩
    | _ => none
  | _ => none

/-- A typed handle for a pipeline artifact. The `id` field stands for the
object's identity, so that equality of `Channel` values models Python's
`is` on channel objects. -/
structure Channel where
  id : Nat
  type_name : String
deriving DecidableEq

/-- Declared parameter value types: primitives and the structured
(proto-like) type. -/
inductive PType
  | int
  | str
  | proto
deriving DecidableEq

/-- Modelled from the spec: `ExecutionParameter` — declares an expected
value type and an optionality flag (default: required). -/
structure ExecutionParameter where
  type : PType
  optional : Bool := false
deriving DecidableEq

/-- Modelled from the spec: `ChannelParameter` — declares a required
logical type-name that supplied channels must match, plus optionality. -/
structure ChannelParameter where
  type_name : String
  optional : Bool := false
deriving DecidableEq

/-- A value supplied as a keyword argument at instantiation. -/
inductive ArgValue
  | int (i : Int)
  | str (s : String)
  | proto (p : ProtoInput)
  | channel (c : Channel)
deriving DecidableEq

/-- A value placed in one of the descriptor's three mappings: a proper
`ExecutionParameter`, a proper `ChannelParameter`, or some unrelated
object (the test's `object()`). -/
inductive RawSpecValue
  | execParam (p : ExecutionParameter)
  | channelParam (c : ChannelParameter)
  | other
deriving DecidableEq

/-- Modelled from the spec: a descriptor subtype. Each of the three
mappings may be absent (`none`), modelling a subtype that does not
override it; the alias mappings default to empty. -/
structure RawDescriptor where
  PARAMETERS : Option (List (String × RawSpecValue))
  INPUTS : Option (List (String × RawSpecValue))
  OUTPUTS : Option (List (String × RawSpecValue))
  inputAliases : List (String × String) := []
  outputAliases : List (String × String) := []
deriving DecidableEq

/-- The errors the validator can raise, with the payload that each
message carries. -/
inductive SpecError
  | abstractClass (missing : List String)
  | notComponentParameter (mapping name : String)
  | wrongSpecKind (mapping expected name : String)
  | duplicateArgument (name : String)
  | paramTypeMismatch (name : String) (expected : PType) (actual : String)
  | channelTypeMismatch (name expected actual : String)
  | missingArgument (name : String)
deriving DecidableEq

/-- The Python exception class each error is raised as. -/
inductive PyError
  | typeError
  | valueError
deriving DecidableEq

/-- Modelled from the test file: which concrete exception class each
error kind maps to. -/
def SpecError.pyClass : SpecError → PyError
  | .abstractClass _ => .typeError
  | .notComponentParameter _ _ => .valueError
  | .wrongSpecKind _ _ _ => .typeError
  | .duplicateArgument _ => .valueError
  | .paramTypeMismatch _ _ _ => .typeError
  | .channelTypeMismatch _ _ _ => .typeError
  | .missingArgument _ => .valueError

/-- A validated instance: three resolved mappings plus the alias index
used for the two-level lookup on inputs and outputs. -/
structure Instance where
  exec_properties : List (String × ArgValue)
  inputs : List (String × Channel)
  outputs : List (String × Channel)
  inputAliases : List (String × String)
  outputAliases : List (String × String)
deriving DecidableEq

/-- First-match association-list lookup (the model of dict lookup). -/
def lookupA {β : Type} (n : String) : List (String × β) → Option β
  | [] => none
  | (m, v) :: rest => if m = n then some v else lookupA n rest

/-- Two-level input lookup: the canonical store first, then the
alias-to-canonical index on a miss. -/
def Instance.getInput (inst : Instance) (n : String) : Option Channel :=
  match lookupA n inst.inputs with
  | some c => some c
  | none =>
    match lookupA n inst.inputAliases with
    | some canon => lookupA canon inst.inputs
    | none => none

/-- Two-level output lookup, like `Instance.getInput`. -/
def Instance.getOutput (inst : Instance) (n : String) : Option Channel :=
  match lookupA n inst.outputs with
  | some c => some c
  | none =>
    match lookupA n inst.outputAliases with
    | some canon => lookupA canon inst.outputs
    | none => none

/-- The printable kind of a supplied value, used in error payloads. -/
def kindName : ArgValue → String
  | .int _ => "int"
  | .str _ => "str"
  | .proto _ => "proto"
  | .channel _ => "Channel"

/-- Does a supplied value match a declared parameter type? -/
def typeMatches : PType → ArgValue → Bool
  | .int, .int _ => true
  | .str, .str _ => true
  | .proto, .proto _ => true
  | _, _ => false

/-- Does a supplied value match a declared channel slot? It must be a
channel whose `type_name` equals the declared one. -/
def channelMatches (cs : ChannelParameter) : ArgValue → Bool
  | .channel c => c.type_name == cs.type_name
  | _ => false

/-- Storage form of a supplied parameter value: structured values are
serialized to their canonical string form, primitives are kept as-is. -/
def storeParam : ArgValue → ArgValue
  | .proto p => .str (encodeProto p)
  | v => v

/-- Check that every value of PARAMETERS is an `ExecutionParameter`,
surfacing the first violation. -/
def checkParamKinds : List (String × RawSpecValue) → Except SpecError (List (String × ExecutionParameter))
  | [] => .ok []
  | (n, .execParam p) :: rest =>
    match checkParamKinds rest with
    | .ok ps => .ok ((n, p) :: ps)
    | .error e => .error e
  | (n, .channelParam _) :: _ => .error (.wrongSpecKind "PARAMETERS" "ExecutionParameter" n)
  | (n, .other) :: _ => .error (.notComponentParameter "PARAMETERS" n)

/-- Check that every value of an INPUTS/OUTPUTS mapping is a
`ChannelParameter`, surfacing the first violation. -/
def checkChannelKinds (mapping : String) : List (String × RawSpecValue) → Except SpecError (List (String × ChannelParameter))
  | [] => .ok []
  | (n, .channelParam c) :: rest =>
    match checkChannelKinds mapping rest with
    | .ok cs => .ok ((n, c) :: cs)
    | .error e => .error e
  | (n, .execParam _) :: _ => .error (.wrongSpecKind mapping "ChannelParameter" n)
  | (n, .other) :: _ => .error (.notComponentParameter mapping n)

/-- First name that occurs again later in the list, if any. -/
def findDup : List String → Option String
  | [] => none
  | n :: rest => if n ∈ rest then some n else findDup rest

/-- Resolve the declared parameters against the keyword arguments:
type-check supplied values, serialize structured ones, reject missing
required ones, and skip absent optional ones. -/
def resolveParams : List (String × ExecutionParameter) → List (String × ArgValue) → Except SpecError (List (String × ArgValue))
  | [], _ => .ok []
  | (n, q) :: rest, kwargs =>
    match lookupA n kwargs with
    | some v =>
      if typeMatches q.type v then
        match resolveParams rest kwargs with
        | .ok r => .ok ((n, storeParam v) :: r)
        | .error e => .error e
      else .error (.paramTypeMismatch n q.type (kindName v))
    | none =>
      if q.optional then resolveParams rest kwargs
      else .error (.missingArgument n)

/-- Resolve the declared channels of one mapping against the keyword
arguments: a supplied value must be a channel with the declared
type-name; required ones must be present. -/
def resolveChannels : List (String × ChannelParameter) → List (String × ArgValue) → Except SpecError (List (String × Channel))
  | [], _ => .ok []
  | (n, cs) :: rest, kwargs =>
    match lookupA n kwargs with
    | some (.channel c) =>
      if c.type_name = cs.type_name then
        match resolveChannels rest kwargs with
        | .ok r => .ok ((n, c) :: r)
        | .error e => .error e
      else .error (.channelTypeMismatch n cs.type_name c.type_name)
    | some v => .error (.channelTypeMismatch n cs.type_name (kindName v))
    | none =>
      if cs.optional then resolveChannels rest kwargs
      else .error (.missingArgument n)

/-- Is one declared parameter satisfiable by the keyword arguments: a
supplied value of the declared type, or absent but optional? -/
def paramArgOk (p : String × ExecutionParameter) (kwargs : List (String × ArgValue)) : Bool :=
  match lookupA p.1 kwargs with
  | some v => typeMatches p.2.type v
  | none => p.2.optional

/-- Is one declared channel slot satisfiable by the keyword arguments:
a supplied channel of the declared type-name, or absent but optional? -/
def channelArgOk (p : String × ChannelParameter) (kwargs : List (String × ArgValue)) : Bool :=
  match lookupA p.1 kwargs with
  | some v => channelMatches p.2 v
  | none => p.2.optional

/-- Which of the three required mappings a descriptor leaves undefined. -/
def missingMappings (d : RawDescriptor) : List String :=
  (if d.PARAMETERS.isNone then ["PARAMETERS"] else []) ++
  (if d.INPUTS.isNone then ["INPUTS"] else []) ++
  (if d.OUTPUTS.isNone then ["OUTPUTS"] else [])

/-- Sequencing of validation steps: the first error is surfaced. -/
def exbind {α β : Type} (x : Except SpecError α) (f : α → Except SpecError β) : Except SpecError β :=
  match x with
  | .ok a => f a
  | .error e => .error e

/-- Duplicate-name check over the names of all three mappings. -/
def checkNoDup (names : List String) : Except SpecError Unit :=
  match findDup names with
  | some m => .error (.duplicateArgument m)
  | none => .ok ()

/-- The validation pipeline once the three mappings are known to be
declared: value-kind checks, duplicate-name check, then argument
resolution, surfacing the first violation encountered. -/
def newBody (d : RawDescriptor) (rawP rawI rawO : List (String × RawSpecValue))
    (kwargs : List (String × ArgValue)) : Except SpecError Instance :=
  exbind (checkParamKinds rawP) fun ps =>
  exbind (checkChannelKinds "INPUTS" rawI) fun ins =>
  exbind (checkChannelKinds "OUTPUTS" rawO) fun outs =>
  exbind (checkNoDup (rawP.map Prod.fst ++ rawI.map Prod.fst ++ rawO.map Prod.fst)) fun _ =>
  exbind (resolveParams ps kwargs) fun ep =>
  exbind (resolveChannels ins kwargs) fun rins =>
  exbind (resolveChannels outs kwargs) fun routs =>
  .ok ⟨ep, rins, routs, d.inputAliases, d.outputAliases⟩

/-- Modelled from the spec: constructing a `ComponentSpec` instance from
a descriptor and keyword arguments. A descriptor missing one of the
three mappings is abstract and cannot be instantiated. -/
def ComponentSpec.new (d : RawDescriptor) (kwargs : List (String × ArgValue)) : Except SpecError Instance :=
  match d.PARAMETERS, d.INPUTS, d.OUTPUTS with
  | some rawP, some rawI, some rawO => newBody d rawP rawI rawO kwargs
  | _, _, _ => .error (.abstractClass (missingMappings d))

/-- Is a result a successfully produced instance? -/
def isOkResult : Except SpecError Instance → Bool
  | .ok _ => true
  | .error _ => false

/-- Do all PARAMETERS values have the right kind? -/
def kindsOkP (raw : List (String × RawSpecValue)) : Bool :=
  match checkParamKinds raw with
  | .ok _ => true
  | .error _ => false

/-- Do all values of an INPUTS/OUTPUTS mapping have the right kind? -/
def kindsOkC (mapping : String) (raw : List (String × RawSpecValue)) : Bool :=
  match checkChannelKinds mapping raw with
  | .ok _ => true
  | .error _ => false

/-- The exception class of a failed result, if it failed. -/
def pyClassOf : Except SpecError Instance → Option PyError
  | .error e => some e.pyClass
  | .ok _ => none

/-- Does an error identify an expected spec kind (the definition errors
for wrong mapping-value kinds)? -/
def SpecError.expectedKind : SpecError → Option String
  | .notComponentParameter _ _ => some "_ComponentParameter"
  | .wrongSpecKind _ e _ => some e
  | _ => none

/-- The expected spec kind named by a failed result, if any. -/
def expectedKindOf : Except SpecError Instance → Option String
  | .error e => e.expectedKind
  | .ok _ => none

/-- The `_BasicComponentSpec` descriptor of the test file. -/
def basicSpec : RawDescriptor :=
  { PARAMETERS := some [("folds", .execParam ⟨.int, false⟩),
                        ("proto", .execParam ⟨.proto, true⟩)],
    INPUTS := some [("input", .channelParam ⟨"InputType", false⟩)],
    OUTPUTS := some [("output", .channelParam ⟨"OutputType", false⟩)],
    inputAliases := [("future_input_name", "input")],
    outputAliases := [("future_output_name", "output")] }

/-- The three-split proto value built in `testComponentspecBasic`. -/
def sampleProto : ProtoInput :=
  ⟨[⟨"name1", "pattern1"⟩, ⟨"name2", "pattern2"⟩, ⟨"name3", "pattern3"⟩]⟩

/-- The input channel of `testComponentspecBasic`. -/
def inputChannel : Channel := ⟨1, "InputType"⟩

/-- The output channel of `testComponentspecBasic`. -/
def outputChannel : Channel := ⟨2, "OutputType"⟩

/-- The keyword arguments of the successful `_BasicComponentSpec` call. -/
def basicKwargs : List (String × ArgValue) :=
  [("folds", .int 10), ("proto", .proto sampleProto),
   ("input", .channel inputChannel), ("output", .channel outputChannel)]

/-- The instance the successful `_BasicComponentSpec` call produces. -/
def basicInstance : Instance :=
  ⟨[("folds", .int 10), ("proto", .str (encodeProto sampleProto))],
   [("input", inputChannel)], [("output", outputChannel)],
   [("future_input_name", "input")], [("future_output_name", "output")]⟩

/-- The empty descriptor of `testComponentspecEmpty`. -/
def emptySpec : RawDescriptor :=
  { PARAMETERS := some [], INPUTS := some [], OUTPUTS := some [] }

/-- `WrongTypeComponentSpecA`: an unrelated object in PARAMETERS. -/
def wrongTypeSpecA : RawDescriptor :=
  { PARAMETERS := some [("x", .other)], INPUTS := some [], OUTPUTS := some [] }

/-- `WrongTypeComponentSpecB`: a `ChannelParameter` in PARAMETERS. -/
def wrongTypeSpecB : RawDescriptor :=
  { PARAMETERS := some [("x", .channelParam ⟨"X", false⟩)], INPUTS := some [],
    OUTPUTS := some [] }

/-- `WrongTypeComponentSpecC`: an `ExecutionParameter` in INPUTS. -/
def wrongTypeSpecC : RawDescriptor :=
  { PARAMETERS := some [], INPUTS := some [("x", .execParam ⟨.int, false⟩)],
    OUTPUTS := some [] }

/-- `DuplicatePropertyComponentSpec`: the name `x` in both PARAMETERS
and INPUTS. -/
def dupSpec : RawDescriptor :=
  { PARAMETERS := some [("x", .execParam ⟨.int, false⟩)],
    INPUTS := some [("x", .channelParam ⟨"X", false⟩)], OUTPUTS := some [] }

/-- `SimpleComponentSpec` of `testComponentspecMissingArguments`. -/
def simpleSpec : RawDescriptor :=
  { PARAMETERS := some [("x", .execParam ⟨.int, false⟩),
                        ("y", .execParam ⟨.int, true⟩)],
    INPUTS := some [("z", .channelParam ⟨"Z", false⟩)], OUTPUTS := some [] }

/-- The channel supplied for slot `z` in the missing-arguments test. -/
def zChannel : Channel := ⟨3, "Z"⟩

/-- An instance value used to instantiate universally quantified
no-instance statements at a concrete point. -/
def dummyInstance : Instance := ⟨[], [], [], [], []⟩

theorem takeWhile_replicate_cons (c d : Char) (hd : (d == c) = false) :
    ∀ (n : Nat) (l : List Char),
      (List.replicate n c ++ d :: l).takeWhile (· == c) = List.replicate n c := by
  intro n
  induction n with
  | zero => intro l; simp [List.takeWhile, hd]
  | succ k ih =>
    intro l
    simp only [List.replicate_succ, List.cons_append, List.takeWhile]
    simp only [beq_self_eq_true, List.append_eq]
    rw [ih l]

theorem decStr_encStr (s r : List Char) : decStr (encStr s ++ r) = some (s, r) := by
  unfold decStr encStr
  simp only [List.append_assoc, List.cons_append]
  rw [takeWhile_replicate_cons '#' ':' (by decide)]
  simp only [List.length_replicate]
  rw [List.drop_left' (List.length_replicate _ _)]
  simp [List.take_left' rfl, List.drop_left' rfl]

theorem decSplits_encSplits (ss : List Split) (r : List Char) :
    decSplits ss.length (encSplits ss ++ r) = some (ss, r) := by
  induction ss with
  | nil => simp [decSplits, encSplits]
  | cons s rest ih =>
    simp only [List.length_cons, encSplits, encSplit, decSplits, List.append_assoc]
    rw [decStr_encStr]
    simp only
    rw [decStr_encStr]
    simp only
    rw [ih]

/-- Serialization round-trip: decoding the canonical string form of a
structured value recovers the value, field for field. -/
theorem decodeProto_encodeProto (p : ProtoInput) : decodeProto (encodeProto p) = some p := by
  unfold decodeProto encodeProto
  simp only
  rw [takeWhile_replicate_cons '*' '|' (by decide)]
  simp only [List.length_replicate]
  rw [List.drop_left' (List.length_replicate _ _)]
  simp only
  have h := decSplits_encSplits p.splits []
  rw [List.append_nil] at h
  rw [h]

example : ComponentSpec.new basicSpec basicKwargs = .ok basicInstance := rfl

example : ComponentSpec.new basicSpec
    [("folds", .str "string"), ("input", .channel inputChannel),
     ("output", .channel outputChannel)] =
    .error (.paramTypeMismatch "folds" .int "str") := rfl

example : ComponentSpec.new basicSpec
    [("folds", .int 10), ("input", .channel ⟨4, "WrongType"⟩),
     ("output", .channel outputChannel)] =
    .error (.channelTypeMismatch "input" "InputType" "WrongType") := rfl

example : ComponentSpec.new emptySpec [] = .ok ⟨[], [], [], [], []⟩ := rfl

example : ComponentSpec.new wrongTypeSpecA [] =
    .error (.notComponentParameter "PARAMETERS" "x") := rfl

example : ComponentSpec.new wrongTypeSpecB [] =
    .error (.wrongSpecKind "PARAMETERS" "ExecutionParameter" "x") := rfl

example : ComponentSpec.new wrongTypeSpecC [] =
    .error (.wrongSpecKind "INPUTS" "ChannelParameter" "x") := rfl

example : ComponentSpec.new dupSpec [] = .error (.duplicateArgument "x") := by
  simp [ComponentSpec.new, dupSpec, newBody, checkParamKinds, checkChannelKinds,
    exbind, checkNoDup, findDup]

example : ComponentSpec.new simpleSpec [("x", .int 10)] =
    .error (.missingArgument "z") := rfl

example : ComponentSpec.new simpleSpec [("z", .channel zChannel)] =
    .error (.missingArgument "x") := rfl

example : ComponentSpec.new simpleSpec [("x", .int 10), ("z", .channel zChannel)] =
    .ok ⟨[("x", .int 10)], [("z", zChannel)], [], [], []⟩ := rfl

example : (ComponentSpec.new
    { PARAMETERS := none, INPUTS := some [], OUTPUTS := some [] } []) =
    .error (.abstractClass ["PARAMETERS"]) := rfl

theorem exbind_ok_inv {α β : Type} {x : Except SpecError α} {f : α → Except SpecError β} {b : β}
    (h : exbind x f = .ok b) : ∃ a, x = .ok a ∧ f a = .ok b := by
  cases x with
  | ok a => exact ⟨a, rfl, h⟩
  | error e => exact Except.noConfusion h

theorem checkNoDup_ok {names : List String} {u : Unit} (h : checkNoDup names = .ok u) :
    findDup names = none := by
  unfold checkNoDup at h
  cases hf : findDup names with
  | none => rfl
  | some m => rw [hf] at h; exact Except.noConfusion h

theorem lookupA_mem_names {β : Type} {n : String} {v : β} :
    ∀ {l : List (String × β)}, lookupA n l = some v → n ∈ l.map Prod.fst := by
  intro l
  induction l with
  | nil => intro h; exact Option.noConfusion h
  | cons p rest ih =>
    intro h
    obtain ⟨m, w⟩ := p
    simp only [lookupA] at h
    by_cases hm : m = n
    · subst hm; simp
    · rw [if_neg hm] at h
      simp only [List.map_cons]
      exact List.mem_cons_of_mem _ (ih h)

theorem findDup_eq_none_iff : ∀ (l : List String), findDup l = none ↔ l.Nodup := by
  intro l
  induction l with
  | nil => simp [findDup]
  | cons n rest ih =>
    simp only [findDup, List.nodup_cons]
    by_cases hn : n ∈ rest
    · simp [hn]
    · simp [hn, ih]

theorem checkParamKinds_ok_mem {n : String} {q : ExecutionParameter} :
    ∀ {raw : List (String × RawSpecValue)} {ps : List (String × ExecutionParameter)},
      checkParamKinds raw = .ok ps → (n, RawSpecValue.execParam q) ∈ raw → (n, q) ∈ ps := by
  intro raw
  induction raw with
  | nil => intro ps h hm; simp at hm
  | cons p rest ih =>
    intro ps h hm
    obtain ⟨m, w⟩ := p
    cases w with
    | execParam pe =>
      simp only [checkParamKinds] at h
      cases hr : checkParamKinds rest with
      | ok ps' =>
        rw [hr] at h
        injection h with h
        rcases List.mem_cons.mp hm with heq | hmem
        · simp only [Prod.mk.injEq, RawSpecValue.execParam.injEq] at heq
          obtain ⟨rfl, rfl⟩ := heq
          rw [← h]
          exact List.mem_cons_self _ _
        · rw [← h]
          exact List.mem_cons_of_mem _ (ih hr hmem)
      | error e => rw [hr] at h; exact Except.noConfusion h
    | channelParam c => exact Except.noConfusion h
    | other => exact Except.noConfusion h

theorem checkChannelKinds_ok_mem {mapping n : String} {q : ChannelParameter} :
    ∀ {raw : List (String × RawSpecValue)} {cs : List (String × ChannelParameter)},
      checkChannelKinds mapping raw = .ok cs → (n, RawSpecValue.channelParam q) ∈ raw →
      (n, q) ∈ cs := by
  intro raw
  induction raw with
  | nil => intro cs h hm; simp at hm
  | cons p rest ih =>
    intro cs h hm
    obtain ⟨m, w⟩ := p
    cases w with
    | channelParam ce =>
      simp only [checkChannelKinds] at h
      cases hr : checkChannelKinds mapping rest with
      | ok cs' =>
        rw [hr] at h
        injection h with h
        rcases List.mem_cons.mp hm with heq | hmem
        · simp only [Prod.mk.injEq, RawSpecValue.channelParam.injEq] at heq
          obtain ⟨rfl, rfl⟩ := heq
          rw [← h]
          exact List.mem_cons_self _ _
        · rw [← h]
          exact List.mem_cons_of_mem _ (ih hr hmem)
      | error e => rw [hr] at h; exact Except.noConfusion h
    | execParam pe => exact Except.noConfusion h
    | other => exact Except.noConfusion h

theorem checkChannelKinds_ok_names {mapping : String} :
    ∀ {raw : List (String × RawSpecValue)} {cs : List (String × ChannelParameter)},
      checkChannelKinds mapping raw = .ok cs → cs.map Prod.fst = raw.map Prod.fst := by
  intro raw
  induction raw with
  | nil =>
    intro cs h
    simp only [checkChannelKinds] at h
    injection h with h
    rw [← h]
    rfl
  | cons p rest ih =>
    intro cs h
    obtain ⟨m, w⟩ := p
    cases w with
    | channelParam ce =>
      simp only [checkChannelKinds] at h
      cases hr : checkChannelKinds mapping rest with
      | ok cs' =>
        rw [hr] at h
        injection h with h
        rw [← h]
        simp only [List.map_cons]
        rw [ih hr]
      | error e => rw [hr] at h; exact Except.noConfusion h
    | execParam pe => exact Except.noConfusion h
    | other => exact Except.noConfusion h

theorem checkParamKinds_error_kind :
    ∀ {raw : List (String × RawSpecValue)} {e : SpecError},
      checkParamKinds raw = .error e → e.expectedKind.isSome = true := by
  intro raw
  induction raw with
  | nil => intro e h; exact Except.noConfusion h
  | cons p rest ih =>
    intro e h
    obtain ⟨m, w⟩ := p
    cases w with
    | execParam pe =>
      simp only [checkParamKinds] at h
      cases hr : checkParamKinds rest with
      | ok ps => rw [hr] at h; exact Except.noConfusion h
      | error e' =>
        rw [hr] at h
        injection h with h
        rw [← h]
        exact ih hr
    | channelParam c =>
      simp only [checkParamKinds] at h
      injection h with h
      rw [← h]
      rfl
    | other =>
      simp only [checkParamKinds] at h
      injection h with h
      rw [← h]
      rfl

theorem checkChannelKinds_error_kind {mapping : String} :
    ∀ {raw : List (String × RawSpecValue)} {e : SpecError},
      checkChannelKinds mapping raw = .error e → e.expectedKind.isSome = true := by
  intro raw
  induction raw with
  | nil => intro e h; exact Except.noConfusion h
  | cons p rest ih =>
    intro e h
    obtain ⟨m, w⟩ := p
    cases w with
    | channelParam c =>
      simp only [checkChannelKinds] at h
      cases hr : checkChannelKinds mapping rest with
      | ok cs => rw [hr] at h; exact Except.noConfusion h
      | error e' =>
        rw [hr] at h
        injection h with h
        rw [← h]
        exact ih hr
    | execParam pe =>
      simp only [checkChannelKinds] at h
      injection h with h
      rw [← h]
      rfl
    | other =>
      simp only [checkChannelKinds] at h
      injection h with h
      rw [← h]
      rfl

theorem checkParamKinds_bad {n : String} {v : RawSpecValue}
    (hv : ∀ p, v ≠ RawSpecValue.execParam p) :
    ∀ {raw : List (String × RawSpecValue)}, (n, v) ∈ raw →
      ∃ e, checkParamKinds raw = .error e := by
  intro raw
  induction raw with
  | nil => intro hm; simp at hm
  | cons p rest ih =>
    intro hm
    obtain ⟨m, w⟩ := p
    cases w with
    | execParam pe =>
      rcases List.mem_cons.mp hm with heq | hmem
      · exfalso
        simp only [Prod.mk.injEq] at heq
        exact hv pe heq.2
      · obtain ⟨e, he⟩ := ih hmem
        refine ⟨e, ?_⟩
        simp only [checkParamKinds, he]
    | channelParam c => exact ⟨_, rfl⟩
    | other => exact ⟨_, rfl⟩

theorem checkChannelKinds_bad (mapping : String) {n : String} {v : RawSpecValue}
    (hv : ∀ c, v ≠ RawSpecValue.channelParam c) :
    ∀ {raw : List (String × RawSpecValue)}, (n, v) ∈ raw →
      ∃ e, checkChannelKinds mapping raw = .error e := by
  intro raw
  induction raw with
  | nil => intro hm; simp at hm
  | cons p rest ih =>
    intro hm
    obtain ⟨m, w⟩ := p
    cases w with
    | channelParam c =>
      rcases List.mem_cons.mp hm with heq | hmem
      · exfalso
        simp only [Prod.mk.injEq] at heq
        exact hv c heq.2
      · obtain ⟨e, he⟩ := ih hmem
        refine ⟨e, ?_⟩
        simp only [checkChannelKinds, he]
    | execParam pe => exact ⟨_, rfl⟩
    | other => exact ⟨_, rfl⟩

theorem resolveParams_ok_matches {n : String} {q : ExecutionParameter} {v : ArgValue}
    {kwargs : List (String × ArgValue)} (hk : lookupA n kwargs = some v) :
    ∀ {ps : List (String × ExecutionParameter)} {r : List (String × ArgValue)},
      resolveParams ps kwargs = .ok r → (n, q) ∈ ps → typeMatches q.type v = true := by
  intro ps
  induction ps with
  | nil => intro r h hm; simp at hm
  | cons p rest ih =>
    intro r h hm
    obtain ⟨m, w⟩ := p
    simp only [resolveParams] at h
    rcases List.mem_cons.mp hm with heq | hmem
    · simp only [Prod.mk.injEq] at heq
      obtain ⟨rfl, rfl⟩ := heq
      simp only [hk] at h
      by_cases ht : typeMatches q.type v = true
      · exact ht
      · rw [if_neg ht] at h
        exact Except.noConfusion h
    · cases hkm : lookupA m kwargs with
      | some vm =>
        simp only [hkm] at h
        by_cases ht : typeMatches w.type vm = true
        · rw [if_pos ht] at h
          cases hr : resolveParams rest kwargs with
          | ok r' => exact ih hr hmem
          | error e => rw [hr] at h; exact Except.noConfusion h
        · rw [if_neg ht] at h
          exact Except.noConfusion h
      | none =>
        simp only [hkm] at h
        by_cases ho : w.optional = true
        · rw [if_pos ho] at h
          exact ih h hmem
        · rw [if_neg ho] at h
          exact Except.noConfusion h

theorem resolveParams_ok_lookup {n : String} {v : ArgValue}
    {kwargs : List (String × ArgValue)} (hk : lookupA n kwargs = some v) :
    ∀ {ps : List (String × ExecutionParameter)} {r : List (String × ArgValue)},
      resolveParams ps kwargs = .ok r → n ∈ ps.map Prod.fst →
      lookupA n r = some (storeParam v) := by
  intro ps
  induction ps with
  | nil => intro r h hm; simp at hm
  | cons p rest ih =>
    intro r h hm
    obtain ⟨m, w⟩ := p
    simp only [resolveParams] at h
    cases hkm : lookupA m kwargs with
    | some vm =>
      simp only [hkm] at h
      by_cases ht : typeMatches w.type vm = true
      · rw [if_pos ht] at h
        cases hr : resolveParams rest kwargs with
        | ok r' =>
          rw [hr] at h
          injection h with h
          rw [← h]
          by_cases hmn : m = n
          · subst hmn
            rw [hkm] at hk
            injection hk with hk
            simp [lookupA, hk]
          · simp only [lookupA, if_neg hmn]
            simp only [List.map_cons, List.mem_cons] at hm
            rcases hm with hm | hm
            · exact absurd hm.symm hmn
            · exact ih hr hm
        | error e => rw [hr] at h; exact Except.noConfusion h
      · rw [if_neg ht] at h
        exact Except.noConfusion h
    | none =>
      simp only [hkm] at h
      by_cases ho : w.optional = true
      · rw [if_pos ho] at h
        have hmn : m ≠ n := by
          intro hc
          subst hc
          rw [hkm] at hk
          exact Option.noConfusion hk
        simp only [List.map_cons, List.mem_cons] at hm
        rcases hm with hm | hm
        · exact absurd hm.symm hmn
        · exact ih h hm
      · rw [if_neg ho] at h
        exact Except.noConfusion h

theorem resolveParams_ok_absent {n : String}
    {kwargs : List (String × ArgValue)} (hk : lookupA n kwargs = none) :
    ∀ {ps : List (String × ExecutionParameter)} {r : List (String × ArgValue)},
      resolveParams ps kwargs = .ok r → lookupA n r = none := by
  intro ps
  induction ps with
  | nil =>
    intro r h
    injection h with h
    rw [← h]
    rfl
  | cons p rest ih =>
    intro r h
    obtain ⟨m, w⟩ := p
    simp only [resolveParams] at h
    cases hkm : lookupA m kwargs with
    | some vm =>
      simp only [hkm] at h
      by_cases ht : typeMatches w.type vm = true
      · rw [if_pos ht] at h
        cases hr : resolveParams rest kwargs with
        | ok r' =>
          rw [hr] at h
          injection h with h
          rw [← h]
          have hmn : m ≠ n := by
            intro hc
            subst hc
            rw [hkm] at hk
            exact Option.noConfusion hk
          simp only [lookupA, if_neg hmn]
          exact ih hr
        | error e => rw [hr] at h; exact Except.noConfusion h
      · rw [if_neg ht] at h
        exact Except.noConfusion h
    | none =>
      simp only [hkm] at h
      by_cases ho : w.optional = true
      · rw [if_pos ho] at h
        exact ih h
      · rw [if_neg ho] at h
        exact Except.noConfusion h

theorem resolveParams_ok_required {n : String} {q : ExecutionParameter}
    {kwargs : List (String × ArgValue)} (hk : lookupA n kwargs = none)
    (hq : q.optional = false) :
    ∀ {ps : List (String × ExecutionParameter)} {r : List (String × ArgValue)},
      resolveParams ps kwargs = .ok r → (n, q) ∉ ps := by
  intro ps
  induction ps with
  | nil => intro r h hm; simp at hm
  | cons p rest ih =>
    intro r h hm
    obtain ⟨m, w⟩ := p
    simp only [resolveParams] at h
    rcases List.mem_cons.mp hm with heq | hmem
    · simp only [Prod.mk.injEq] at heq
      obtain ⟨rfl, rfl⟩ := heq
      simp only [hk] at h
      rw [if_neg (by simp [hq])] at h
      exact Except.noConfusion h
    · cases hkm : lookupA m kwargs with
      | some vm =>
        simp only [hkm] at h
        by_cases ht : typeMatches w.type vm = true
        · rw [if_pos ht] at h
          cases hr : resolveParams rest kwargs with
          | ok r' => exact ih hr hmem
          | error e => rw [hr] at h; exact Except.noConfusion h
        · rw [if_neg ht] at h
          exact Except.noConfusion h
      | none =>
        simp only [hkm] at h
        by_cases ho : w.optional = true
        · rw [if_pos ho] at h
          exact ih h hmem
        · rw [if_neg ho] at h
          exact Except.noConfusion h

theorem resolveParams_total {kwargs : List (String × ArgValue)} :
    ∀ {ps : List (String × ExecutionParameter)},
      (∀ p ∈ ps, paramArgOk p kwargs = true) →
      ∃ r, resolveParams ps kwargs = .ok r := by
  intro ps
  induction ps with
  | nil => intro _; exact ⟨[], rfl⟩
  | cons p rest ih =>
    intro hall
    obtain ⟨m, w⟩ := p
    have hw := hall (m, w) (List.mem_cons_self _ _)
    obtain ⟨r, hr⟩ := ih fun p hp => hall p (List.mem_cons_of_mem _ hp)
    unfold paramArgOk at hw
    simp only at hw
    cases hkm : lookupA m kwargs with
    | some vm =>
      simp only [hkm] at hw
      refine ⟨(m, storeParam vm) :: r, ?_⟩
      simp only [resolveParams, hkm]
      rw [if_pos hw, hr]
    | none =>
      simp only [hkm] at hw
      refine ⟨r, ?_⟩
      simp only [resolveParams, hkm]
      rw [if_pos hw]
      exact hr

theorem resolveChannels_ok_matches {n : String} {q : ChannelParameter} {v : ArgValue}
    {kwargs : List (String × ArgValue)} (hk : lookupA n kwargs = some v) :
    ∀ {cs : List (String × ChannelParameter)} {r : List (String × Channel)},
      resolveChannels cs kwargs = .ok r → (n, q) ∈ cs → channelMatches q v = true := by
  intro cs
  induction cs with
  | nil => intro r h hm; simp at hm
  | cons p rest ih =>
    intro r h hm
    obtain ⟨m, w⟩ := p
    simp only [resolveChannels] at h
    rcases List.mem_cons.mp hm with heq | hmem
    · simp only [Prod.mk.injEq] at heq
      obtain ⟨rfl, rfl⟩ := heq
      cases v with
      | channel c =>
        simp only [hk] at h
        by_cases ht : c.type_name = q.type_name
        · simp [channelMatches, ht]
        · rw [if_neg ht] at h
          exact Except.noConfusion h
      | int i => simp only [hk] at h; exact Except.noConfusion h
      | str s => simp only [hk] at h; exact Except.noConfusion h
      | proto pr => simp only [hk] at h; exact Except.noConfusion h
    · cases hkm : lookupA m kwargs with
      | some vm =>
        cases vm with
        | channel c =>
          simp only [hkm] at h
          by_cases ht : c.type_name = w.type_name
          · rw [if_pos ht] at h
            cases hr : resolveChannels rest kwargs with
            | ok r' => exact ih hr hmem
            | error e => simp only [hr] at h; exact Except.noConfusion h
          · rw [if_neg ht] at h
            exact Except.noConfusion h
        | int i => simp only [hkm] at h; exact Except.noConfusion h
        | str s => simp only [hkm] at h; exact Except.noConfusion h
        | proto pr => simp only [hkm] at h; exact Except.noConfusion h
      | none =>
        simp only [hkm] at h
        by_cases ho : w.optional = true
        · rw [if_pos ho] at h
          exact ih h hmem
        · rw [if_neg ho] at h
          exact Except.noConfusion h

theorem resolveChannels_ok_lookup {n : String} {c : Channel}
    {kwargs : List (String × ArgValue)} (hk : lookupA n kwargs = some (ArgValue.channel c)) :
    ∀ {cs : List (String × ChannelParameter)} {r : List (String × Channel)},
      resolveChannels cs kwargs = .ok r → n ∈ cs.map Prod.fst →
      lookupA n r = some c := by
  intro cs
  induction cs with
  | nil => intro r h hm; simp at hm
  | cons p rest ih =>
    intro r h hm
    obtain ⟨m, w⟩ := p
    simp only [resolveChannels] at h
    cases hkm : lookupA m kwargs with
    | some vm =>
      cases vm with
      | channel ch =>
        simp only [hkm] at h
        by_cases ht : ch.type_name = w.type_name
        · rw [if_pos ht] at h
          cases hr : resolveChannels rest kwargs with
          | ok r' =>
            simp only [hr] at h
            injection h with h
            rw [← h]
            by_cases hmn : m = n
            · subst hmn
              rw [hkm] at hk
              injection hk with hk
              injection hk with hk
              simp [lookupA, hk]
            · simp only [lookupA, if_neg hmn]
              simp only [List.map_cons, List.mem_cons] at hm
              rcases hm with hm | hm
              · exact absurd hm.symm hmn
              · exact ih hr hm
          | error e => simp only [hr] at h; exact Except.noConfusion h
        · rw [if_neg ht] at h
          exact Except.noConfusion h
      | int i => simp only [hkm] at h; exact Except.noConfusion h
      | str s => simp only [hkm] at h; exact Except.noConfusion h
      | proto pr => simp only [hkm] at h; exact Except.noConfusion h
    | none =>
      simp only [hkm] at h
      by_cases ho : w.optional = true
      · rw [if_pos ho] at h
        have hmn : m ≠ n := by
          intro hc
          subst hc
          rw [hkm] at hk
          exact Option.noConfusion hk
        simp only [List.map_cons, List.mem_cons] at hm
        rcases hm with hm | hm
        · exact absurd hm.symm hmn
        · exact ih h hm
      · rw [if_neg ho] at h
        exact Except.noConfusion h

theorem resolveChannels_ok_names {n : String} {c : Channel} :
    ∀ {cs : List (String × ChannelParameter)} {r : List (String × Channel)} {kwargs},
      resolveChannels cs kwargs = .ok r → lookupA n r = some c →
      n ∈ cs.map Prod.fst := by
  intro cs
  induction cs with
  | nil =>
    intro r kwargs h hl
    injection h with h
    rw [← h] at hl
    exact Option.noConfusion hl
  | cons p rest ih =>
    intro r kwargs h hl
    obtain ⟨m, w⟩ := p
    simp only [resolveChannels] at h
    cases hkm : lookupA m kwargs with
    | some vm =>
      cases vm with
      | channel ch =>
        simp only [hkm] at h
        by_cases ht : ch.type_name = w.type_name
        · rw [if_pos ht] at h
          cases hr : resolveChannels rest kwargs with
          | ok r' =>
            simp only [hr] at h
            injection h with h
            rw [← h] at hl
            simp only [lookupA] at hl
            by_cases hmn : m = n
            · subst hmn; simp
            · rw [if_neg hmn] at hl
              simp only [List.map_cons]
              exact List.mem_cons_of_mem _ (ih hr hl)
          | error e => simp only [hr] at h; exact Except.noConfusion h
        · rw [if_neg ht] at h
          exact Except.noConfusion h
      | int i => simp only [hkm] at h; exact Except.noConfusion h
      | str s => simp only [hkm] at h; exact Except.noConfusion h
      | proto pr => simp only [hkm] at h; exact Except.noConfusion h
    | none =>
      simp only [hkm] at h
      by_cases ho : w.optional = true
      · rw [if_pos ho] at h
        simp only [List.map_cons]
        exact List.mem_cons_of_mem _ (ih h hl)
      · rw [if_neg ho] at h
        exact Except.noConfusion h

theorem resolveChannels_ok_absent {n : String}
    {kwargs : List (String × ArgValue)} (hk : lookupA n kwargs = none) :
    ∀ {cs : List (String × ChannelParameter)} {r : List (String × Channel)},
      resolveChannels cs kwargs = .ok r → lookupA n r = none := by
  intro cs
  induction cs with
  | nil =>
    intro r h
    injection h with h
    rw [← h]
    rfl
  | cons p rest ih =>
    intro r h
    obtain ⟨m, w⟩ := p
    simp only [resolveChannels] at h
    cases hkm : lookupA m kwargs with
    | some vm =>
      cases vm with
      | channel ch =>
        simp only [hkm] at h
        by_cases ht : ch.type_name = w.type_name
        · rw [if_pos ht] at h
          cases hr : resolveChannels rest kwargs with
          | ok r' =>
            simp only [hr] at h
            injection h with h
            rw [← h]
            have hmn : m ≠ n := by
              intro hc
              subst hc
              rw [hkm] at hk
              exact Option.noConfusion hk
            simp only [lookupA, if_neg hmn]
            exact ih hr
          | error e => simp only [hr] at h; exact Except.noConfusion h
        · rw [if_neg ht] at h
          exact Except.noConfusion h
      | int i => simp only [hkm] at h; exact Except.noConfusion h
      | str s => simp only [hkm] at h; exact Except.noConfusion h
      | proto pr => simp only [hkm] at h; exact Except.noConfusion h
    | none =>
      simp only [hkm] at h
      by_cases ho : w.optional = true
      · rw [if_pos ho] at h
        exact ih h
      · rw [if_neg ho] at h
        exact Except.noConfusion h

theorem resolveChannels_ok_required {n : String} {q : ChannelParameter}
    {kwargs : List (String × ArgValue)} (hk : lookupA n kwargs = none)
    (hq : q.optional = false) :
    ∀ {cs : List (String × ChannelParameter)} {r : List (String × Channel)},
      resolveChannels cs kwargs = .ok r → (n, q) ∉ cs := by
  intro cs
  induction cs with
  | nil => intro r h hm; simp at hm
  | cons p rest ih =>
    intro r h hm
    obtain ⟨m, w⟩ := p
    simp only [resolveChannels] at h
    rcases List.mem_cons.mp hm with heq | hmem
    · simp only [Prod.mk.injEq] at heq
      obtain ⟨rfl, rfl⟩ := heq
      simp only [hk] at h
      rw [if_neg (by simp [hq])] at h
      exact Except.noConfusion h
    · cases hkm : lookupA m kwargs with
      | some vm =>
        cases vm with
        | channel ch =>
          simp only [hkm] at h
          by_cases ht : ch.type_name = w.type_name
          · rw [if_pos ht] at h
            cases hr : resolveChannels rest kwargs with
            | ok r' => exact ih hr hmem
            | error e => simp only [hr] at h; exact Except.noConfusion h
          · rw [if_neg ht] at h
            exact Except.noConfusion h
        | int i => simp only [hkm] at h; exact Except.noConfusion h
        | str s => simp only [hkm] at h; exact Except.noConfusion h
        | proto pr => simp only [hkm] at h; exact Except.noConfusion h
      | none =>
        simp only [hkm] at h
        by_cases ho : w.optional = true
        · rw [if_pos ho] at h
          exact ih h hmem
        · rw [if_neg ho] at h
          exact Except.noConfusion h

theorem resolveChannels_total {kwargs : List (String × ArgValue)} :
    ∀ {cs : List (String × ChannelParameter)},
      (∀ p ∈ cs, channelArgOk p kwargs = true) →
      ∃ r, resolveChannels cs kwargs = .ok r := by
  intro cs
  induction cs with
  | nil => intro _; exact ⟨[], rfl⟩
  | cons p rest ih =>
    intro hall
    obtain ⟨m, w⟩ := p
    have hw := hall (m, w) (List.mem_cons_self _ _)
    obtain ⟨r, hr⟩ := ih fun p hp => hall p (List.mem_cons_of_mem _ hp)
    unfold channelArgOk at hw
    cases hkm : lookupA m kwargs with
    | some vm =>
      simp only [hkm] at hw
      cases vm with
      | channel c =>
        simp only [channelMatches, beq_iff_eq] at hw
        refine ⟨(m, c) :: r, ?_⟩
        simp only [resolveChannels, hkm]
        rw [if_pos hw, hr]
      | int i => simp [channelMatches] at hw
      | str s => simp [channelMatches] at hw
      | proto pr => simp [channelMatches] at hw
    | none =>
      simp only [hkm] at hw
      refine ⟨r, ?_⟩
      simp only [resolveChannels, hkm]
      rw [if_pos hw]
      exact hr

theorem newBody_ok_inv {d : RawDescriptor} {rawP rawI rawO : List (String × RawSpecValue)}
    {kwargs : List (String × ArgValue)} {inst : Instance}
    (h : newBody d rawP rawI rawO kwargs = .ok inst) :
    ∃ ps ins outs ep rins routs,
      checkParamKinds rawP = .ok ps ∧
      checkChannelKinds "INPUTS" rawI = .ok ins ∧
      checkChannelKinds "OUTPUTS" rawO = .ok outs ∧
      findDup (rawP.map Prod.fst ++ rawI.map Prod.fst ++ rawO.map Prod.fst) = none ∧
      resolveParams ps kwargs = .ok ep ∧
      resolveChannels ins kwargs = .ok rins ∧
      resolveChannels outs kwargs = .ok routs ∧
      inst = ⟨ep, rins, routs, d.inputAliases, d.outputAliases⟩ := by
  unfold newBody at h
  obtain ⟨ps, hps, h⟩ := exbind_ok_inv h
  obtain ⟨ins, hins, h⟩ := exbind_ok_inv h
  obtain ⟨outs, houts, h⟩ := exbind_ok_inv h
  obtain ⟨u, hu, h⟩ := exbind_ok_inv h
  obtain ⟨ep, hep, h⟩ := exbind_ok_inv h
  obtain ⟨rins, hrins, h⟩ := exbind_ok_inv h
  obtain ⟨routs, hrouts, h⟩ := exbind_ok_inv h
  injection h with h
  exact ⟨ps, ins, outs, ep, rins, routs, hps, hins, houts, checkNoDup_ok hu,
    hep, hrins, hrouts, h.symm⟩

theorem new_ok_inv {d : RawDescriptor} {kwargs : List (String × ArgValue)} {inst : Instance}
    (h : ComponentSpec.new d kwargs = .ok inst) :
    ∃ rawP rawI rawO, d.PARAMETERS = some rawP ∧ d.INPUTS = some rawI ∧
      d.OUTPUTS = some rawO ∧ newBody d rawP rawI rawO kwargs = .ok inst := by
  unfold ComponentSpec.new at h
  cases hP : d.PARAMETERS with
  | none => rw [hP] at h; exact Except.noConfusion h
  | some rawP =>
    cases hI : d.INPUTS with
    | none => rw [hP, hI] at h; exact Except.noConfusion h
    | some rawI =>
      cases hO : d.OUTPUTS with
      | none => rw [hP, hI, hO] at h; exact Except.noConfusion h
      | some rawO =>
        rw [hP, hI, hO] at h
        exact ⟨rawP, rawI, rawO, rfl, rfl, rfl, h⟩

/-- C1: for every descriptor declaring an input alias and an output alias,
and every instantiation in which validation succeeds, the canonical
channels were supplied, and the alias names are not themselves declared
slots, looking up the alias name in the resolved inputs (respectively
outputs) returns the exact same Channel object as looking up the
canonical name. -/
theorem claim_C1_alias_identity (d : RawDescriptor) (kwargs : List (String × ArgValue))
    (inst : Instance) (rawI rawO : List (String × RawSpecValue))
    (ai ci ao co : String) (chi cho : Channel)
    (h : ComponentSpec.new d kwargs = .ok inst)
    (hIr : d.INPUTS = some rawI) (hOr : d.OUTPUTS = some rawO)
    (hai : lookupA ai d.inputAliases = some ci)
    (hao : lookupA ao d.outputAliases = some co)
    (hniI : ai ∉ rawI.map Prod.fst) (hniO : ao ∉ rawO.map Prod.fst)
    (hci : lookupA ci inst.inputs = some chi)
    (hco : lookupA co inst.outputs = some cho) :
    inst.getInput ai = some chi ∧ inst.getInput ci = some chi ∧
    inst.getOutput ao = some cho ∧ inst.getOutput co = some cho := by
  obtain ⟨rawP', rawI', rawO', hP, hI, hO, hb⟩ := new_ok_inv h
  rw [hIr] at hI
  injection hI with hI
  subst hI
  rw [hOr] at hO
  injection hO with hO
  subst hO
  obtain ⟨ps, ins, outs, ep, rins, routs, hps, hins, houts, hdup, hep, hrins, hrouts, hinst⟩ :=
    newBody_ok_inv hb
  subst hinst
  have hnamesI := checkChannelKinds_ok_names hins
  have hnamesO := checkChannelKinds_ok_names houts
  have haiN : lookupA ai rins = none := by
    cases hs : lookupA ai rins with
    | none => rfl
    | some c => exact absurd (hnamesI ▸ resolveChannels_ok_names hrins hs) hniI
  have haoN : lookupA ao routs = none := by
    cases hs : lookupA ao routs with
    | none => rfl
    | some c => exact absurd (hnamesO ▸ resolveChannels_ok_names hrouts hs) hniO
  refine ⟨?_, ?_, ?_, ?_⟩
  · simp only [Instance.getInput] at hci ⊢
    simp only [haiN, hai, hci]
  · simp only [Instance.getInput] at hci ⊢
    simp only [hci]
  · simp only [Instance.getOutput] at hco ⊢
    simp only [haoN, hao, hco]
  · simp only [Instance.getOutput] at hco ⊢
    simp only [hco]

/-- Witness for C1: the `_BasicComponentSpec` scenario — the alias lookups
return the very channels supplied for the canonical names. -/
theorem claim_C1_alias_identity_witness :
    basicInstance.getInput "future_input_name" = some inputChannel ∧
    basicInstance.getInput "input" = some inputChannel ∧
    basicInstance.getOutput "future_output_name" = some outputChannel ∧
    basicInstance.getOutput "output" = some outputChannel :=
  claim_C1_alias_identity basicSpec basicKwargs basicInstance
    [("input", RawSpecValue.channelParam ⟨"InputType", false⟩)]
    [("output", RawSpecValue.channelParam ⟨"OutputType", false⟩)]
    "future_input_name" "input" "future_output_name" "output" inputChannel outputChannel
    rfl rfl rfl rfl rfl (by decide) (by decide) rfl rfl

/-- C2: for every structured (proto-like) parameter value supplied at
instantiation, the stored execution property is the canonical string form
of the value, and decoding that string recovers the original value field
for field. -/
theorem claim_C2_proto_roundtrip (d : RawDescriptor) (kwargs : List (String × ArgValue))
    (inst : Instance) (rawP : List (String × RawSpecValue))
    (n : String) (q : ExecutionParameter) (p : ProtoInput)
    (h : ComponentSpec.new d kwargs = .ok inst)
    (hPr : d.PARAMETERS = some rawP)
    (hm : (n, RawSpecValue.execParam q) ∈ rawP)
    (hk : lookupA n kwargs = some (ArgValue.proto p)) :
    lookupA n inst.exec_properties = some (ArgValue.str (encodeProto p)) ∧
    decodeProto (encodeProto p) = some p := by
  obtain ⟨rawP', rawI', rawO', hP, hI, hO, hb⟩ := new_ok_inv h
  rw [hPr] at hP
  injection hP with hP
  subst hP
  obtain ⟨ps, ins, outs, ep, rins, routs, hps, hins, houts, hdup, hep, hrins, hrouts, hinst⟩ :=
    newBody_ok_inv hb
  subst hinst
  have hmem := checkParamKinds_ok_mem hps hm
  have hname : n ∈ ps.map Prod.fst := List.mem_map_of_mem _ hmem
  have := resolveParams_ok_lookup hk hep hname
  exact ⟨this, decodeProto_encodeProto p⟩

/-- Witness for C2: the three-split proto of the basic test round-trips
through its stored canonical string form. -/
theorem claim_C2_proto_roundtrip_witness :
    lookupA "proto" basicInstance.exec_properties =
      some (ArgValue.str (encodeProto sampleProto)) ∧
    decodeProto (encodeProto sampleProto) = some sampleProto :=
  claim_C2_proto_roundtrip basicSpec basicKwargs basicInstance
    [("folds", RawSpecValue.execParam ⟨PType.int, false⟩),
     ("proto", RawSpecValue.execParam ⟨PType.proto, true⟩)]
    "proto" ⟨PType.proto, true⟩ sampleProto rfl rfl (by decide) rfl

/-- C3: supplying a parameter value of the wrong type, or a channel whose
type-name differs from the declared slot's, never produces an instance;
on the test's scenarios the failure is the value type error naming the
offending parameter or slot with the expected and actual type. -/
theorem claim_C3_value_type_error :
    (∀ (d : RawDescriptor) (kwargs : List (String × ArgValue))
       (rawP : List (String × RawSpecValue)) (n : String) (q : ExecutionParameter)
       (v : ArgValue),
      d.PARAMETERS = some rawP → (n, RawSpecValue.execParam q) ∈ rawP →
      lookupA n kwargs = some v → typeMatches q.type v = false →
      ∀ inst, ComponentSpec.new d kwargs ≠ .ok inst) ∧
    (∀ (d : RawDescriptor) (kwargs : List (String × ArgValue))
       (rawI : List (String × RawSpecValue)) (n : String) (q : ChannelParameter)
       (v : ArgValue),
      d.INPUTS = some rawI → (n, RawSpecValue.channelParam q) ∈ rawI →
      lookupA n kwargs = some v → channelMatches q v = false →
      ∀ inst, ComponentSpec.new d kwargs ≠ .ok inst) ∧
    (∀ (d : RawDescriptor) (kwargs : List (String × ArgValue))
       (rawO : List (String × RawSpecValue)) (n : String) (q : ChannelParameter)
       (v : ArgValue),
      d.OUTPUTS = some rawO → (n, RawSpecValue.channelParam q) ∈ rawO →
      lookupA n kwargs = some v → channelMatches q v = false →
      ∀ inst, ComponentSpec.new d kwargs ≠ .ok inst) ∧
    ComponentSpec.new basicSpec
      [("folds", .str "string"), ("input", .channel inputChannel),
       ("output", .channel outputChannel)] =
      .error (.paramTypeMismatch "folds" PType.int "str") ∧
    ComponentSpec.new basicSpec
      [("folds", .int 10), ("input", .channel ⟨4, "WrongType"⟩),
       ("output", .channel outputChannel)] =
      .error (.channelTypeMismatch "input" "InputType" "WrongType") ∧
    ComponentSpec.new basicSpec
      [("folds", .int 10), ("input", .channel inputChannel),
       ("output", .channel ⟨4, "WrongType"⟩)] =
      .error (.channelTypeMismatch "output" "OutputType" "WrongType") := by
  refine ⟨?_, ?_, ?_, rfl, rfl, rfl⟩
  · intro d kwargs rawP n q v hPr hm hk hbad inst h
    obtain ⟨rawP', rawI', rawO', hP, hI, hO, hb⟩ := new_ok_inv h
    rw [hPr] at hP
    injection hP with hP
    subst hP
    obtain ⟨ps, ins, outs, ep, rins, routs, hps, hins, houts, hdup, hep, hrins, hrouts, hinst⟩ :=
      newBody_ok_inv hb
    have hmem := checkParamKinds_ok_mem hps hm
    have := resolveParams_ok_matches hk hep hmem
    rw [this] at hbad
    exact Bool.noConfusion hbad
  · intro d kwargs rawI n q v hIr hm hk hbad inst h
    obtain ⟨rawP', rawI', rawO', hP, hI, hO, hb⟩ := new_ok_inv h
    rw [hIr] at hI
    injection hI with hI
    subst hI
    obtain ⟨ps, ins, outs, ep, rins, routs, hps, hins, houts, hdup, hep, hrins, hrouts, hinst⟩ :=
      newBody_ok_inv hb
    have hmem := checkChannelKinds_ok_mem hins hm
    have := resolveChannels_ok_matches hk hrins hmem
    rw [this] at hbad
    exact Bool.noConfusion hbad
  · intro d kwargs rawO n q v hOr hm hk hbad inst h
    obtain ⟨rawP', rawI', rawO', hP, hI, hO, hb⟩ := new_ok_inv h
    rw [hOr] at hO
    injection hO with hO
    subst hO
    obtain ⟨ps, ins, outs, ep, rins, routs, hps, hins, houts, hdup, hep, hrins, hrouts, hinst⟩ :=
      newBody_ok_inv hb
    have hmem := checkChannelKinds_ok_mem houts hm
    have := resolveChannels_ok_matches hk hrouts hmem
    rw [this] at hbad
    exact Bool.noConfusion hbad

/-- Witness for C3: the basic descriptor with `folds` bound to a string
produces no instance. -/
theorem claim_C3_value_type_error_witness :
    ComponentSpec.new basicSpec
      [("folds", .str "string"), ("input", .channel inputChannel),
       ("output", .channel outputChannel)] ≠ .ok dummyInstance :=
  claim_C3_value_type_error.1 basicSpec
    [("folds", .str "string"), ("input", .channel inputChannel),
     ("output", .channel outputChannel)]
    [("folds", RawSpecValue.execParam ⟨PType.int, false⟩),
     ("proto", RawSpecValue.execParam ⟨PType.proto, true⟩)]
    "folds" ⟨PType.int, false⟩ (.str "string") rfl (by decide) rfl rfl dummyInstance

/-- C4: omitting a required parameter or channel never produces an
instance (and on the test's scenarios fails with the missing-argument
error naming it); omitting only optional ones succeeds, and any name
absent from the arguments is also absent from every resolved mapping. -/
theorem claim_C4_missing_argument :
    (∀ (d : RawDescriptor) (kwargs : List (String × ArgValue))
       (rawP : List (String × RawSpecValue)) (n : String) (q : ExecutionParameter),
      d.PARAMETERS = some rawP → (n, RawSpecValue.execParam q) ∈ rawP →
      q.optional = false → lookupA n kwargs = none →
      ∀ inst, ComponentSpec.new d kwargs ≠ .ok inst) ∧
    (∀ (d : RawDescriptor) (kwargs : List (String × ArgValue))
       (rawI : List (String × RawSpecValue)) (n : String) (q : ChannelParameter),
      d.INPUTS = some rawI → (n, RawSpecValue.channelParam q) ∈ rawI →
      q.optional = false → lookupA n kwargs = none →
      ∀ inst, ComponentSpec.new d kwargs ≠ .ok inst) ∧
    (∀ (d : RawDescriptor) (kwargs : List (String × ArgValue))
       (rawO : List (String × RawSpecValue)) (n : String) (q : ChannelParameter),
      d.OUTPUTS = some rawO → (n, RawSpecValue.channelParam q) ∈ rawO →
      q.optional = false → lookupA n kwargs = none →
      ∀ inst, ComponentSpec.new d kwargs ≠ .ok inst) ∧
    (∀ (d : RawDescriptor) (kwargs : List (String × ArgValue)) (inst : Instance)
       (n : String),
      ComponentSpec.new d kwargs = .ok inst → lookupA n kwargs = none →
      lookupA n inst.exec_properties = none ∧ lookupA n inst.inputs = none ∧
      lookupA n inst.outputs = none) ∧
    (∀ (d : RawDescriptor) (kwargs : List (String × ArgValue))
       (rawP rawI rawO : List (String × RawSpecValue)),
      d.PARAMETERS = some rawP → d.INPUTS = some rawI → d.OUTPUTS = some rawO →
      (∃ ps, checkParamKinds rawP = .ok ps ∧ ∀ p ∈ ps, paramArgOk p kwargs = true) →
      (∃ ins, checkChannelKinds "INPUTS" rawI = .ok ins ∧
        ∀ p ∈ ins, channelArgOk p kwargs = true) →
      (∃ outs, checkChannelKinds "OUTPUTS" rawO = .ok outs ∧
        ∀ p ∈ outs, channelArgOk p kwargs = true) →
      findDup (rawP.map Prod.fst ++ rawI.map Prod.fst ++ rawO.map Prod.fst) = none →
      isOkResult (ComponentSpec.new d kwargs) = true) ∧
    ComponentSpec.new simpleSpec [("x", .int 10)] = .error (.missingArgument "z") ∧
    ComponentSpec.new simpleSpec [("z", .channel zChannel)] =
      .error (.missingArgument "x") ∧
    ComponentSpec.new simpleSpec [("x", .int 10), ("z", .channel zChannel)] =
      .ok ⟨[("x", ArgValue.int 10)], [("z", zChannel)], [], [], []⟩ ∧
    lookupA "y" [("x", ArgValue.int 10)] = none := by
  refine ⟨?_, ?_, ?_, ?_, ?_, rfl, rfl, rfl, rfl⟩
  · intro d kwargs rawP n q hPr hm hq hk inst h
    obtain ⟨rawP', rawI', rawO', hP, hI, hO, hb⟩ := new_ok_inv h
    rw [hPr] at hP
    injection hP with hP
    subst hP
    obtain ⟨ps, ins, outs, ep, rins, routs, hps, hins, houts, hdup, hep, hrins, hrouts, hinst⟩ :=
      newBody_ok_inv hb
    exact resolveParams_ok_required hk hq hep (checkParamKinds_ok_mem hps hm)
  · intro d kwargs rawI n q hIr hm hq hk inst h
    obtain ⟨rawP', rawI', rawO', hP, hI, hO, hb⟩ := new_ok_inv h
    rw [hIr] at hI
    injection hI with hI
    subst hI
    obtain ⟨ps, ins, outs, ep, rins, routs, hps, hins, houts, hdup, hep, hrins, hrouts, hinst⟩ :=
      newBody_ok_inv hb
    exact resolveChannels_ok_required hk hq hrins (checkChannelKinds_ok_mem hins hm)
  · intro d kwargs rawO n q hOr hm hq hk inst h
    obtain ⟨rawP', rawI', rawO', hP, hI, hO, hb⟩ := new_ok_inv h
    rw [hOr] at hO
    injection hO with hO
    subst hO
    obtain ⟨ps, ins, outs, ep, rins, routs, hps, hins, houts, hdup, hep, hrins, hrouts, hinst⟩ :=
      newBody_ok_inv hb
    exact resolveChannels_ok_required hk hq hrouts (checkChannelKinds_ok_mem houts hm)
  · intro d kwargs inst n h hk
    obtain ⟨rawP', rawI', rawO', hP, hI, hO, hb⟩ := new_ok_inv h
    obtain ⟨ps, ins, outs, ep, rins, routs, hps, hins, houts, hdup, hep, hrins, hrouts, hinst⟩ :=
      newBody_ok_inv hb
    subst hinst
    exact ⟨resolveParams_ok_absent hk hep, resolveChannels_ok_absent hk hrins,
      resolveChannels_ok_absent hk hrouts⟩
  · intro d kwargs rawP rawI rawO hP hI hO hps hins houts hdup
    obtain ⟨ps, hcp, hpok⟩ := hps
    obtain ⟨ins, hci, hiok⟩ := hins
    obtain ⟨outs, hco, hook⟩ := houts
    obtain ⟨ep, hep⟩ := resolveParams_total hpok
    obtain ⟨rins, hrins⟩ := resolveChannels_total hiok
    obtain ⟨routs, hrouts⟩ := resolveChannels_total hook
    rw [List.append_assoc] at hdup
    simp [ComponentSpec.new, hP, hI, hO, newBody, exbind, hcp, hci, hco,
      checkNoDup, hdup, hep, hrins, hrouts, isOkResult]

/-- Witness for C4: omitting the required channel `z` of the simple
descriptor produces no instance. -/
theorem claim_C4_missing_argument_witness :
    ComponentSpec.new simpleSpec [("x", .int 10)] ≠ .ok dummyInstance :=
  claim_C4_missing_argument.2.1 simpleSpec [("x", .int 10)]
    [("z", RawSpecValue.channelParam ⟨"Z", false⟩)] "z" ⟨"Z", false⟩
    rfl (by decide) rfl rfl dummyInstance

/-- C5: for every descriptor whose three mappings are declared with
well-kinded values but share a name, every instantiation fails with the
duplicate-argument definition error, so no instance of that descriptor
is ever produced. -/
theorem claim_C5_duplicate_name (d : RawDescriptor)
    (rawP rawI rawO : List (String × RawSpecValue))
    (hP : d.PARAMETERS = some rawP) (hI : d.INPUTS = some rawI)
    (hO : d.OUTPUTS = some rawO)
    (hkP : kindsOkP rawP = true) (hkI : kindsOkC "INPUTS" rawI = true)
    (hkO : kindsOkC "OUTPUTS" rawO = true)
    (hdup : ¬ (rawP.map Prod.fst ++ rawI.map Prod.fst ++ rawO.map Prod.fst).Nodup) :
    ∃ m, ∀ kwargs, ComponentSpec.new d kwargs = .error (.duplicateArgument m) := by
  cases hf : findDup (rawP.map Prod.fst ++ rawI.map Prod.fst ++ rawO.map Prod.fst) with
  | none => exact absurd ((findDup_eq_none_iff _).mp hf) hdup
  | some m =>
    refine ⟨m, fun kwargs => ?_⟩
    unfold kindsOkP at hkP
    unfold kindsOkC at hkI hkO
    cases hcp : checkParamKinds rawP with
    | error e => rw [hcp] at hkP; exact Bool.noConfusion hkP
    | ok ps =>
      cases hci : checkChannelKinds "INPUTS" rawI with
      | error e => rw [hci] at hkI; exact Bool.noConfusion hkI
      | ok ins =>
        cases hco : checkChannelKinds "OUTPUTS" rawO with
        | error e => rw [hco] at hkO; exact Bool.noConfusion hkO
        | ok outs =>
          rw [List.append_assoc] at hf
          simp [ComponentSpec.new, hP, hI, hO, newBody, exbind, hcp, hci, hco,
            checkNoDup, hf]

/-- Witness for C5: the duplicated name `x` of the test's duplicate
descriptor makes every instantiation fail. -/
theorem claim_C5_duplicate_name_witness :
    isOkResult (ComponentSpec.new dupSpec []) = false := by
  obtain ⟨m, hm⟩ := claim_C5_duplicate_name dupSpec
    [("x", RawSpecValue.execParam ⟨PType.int, false⟩)]
    [("x", RawSpecValue.channelParam ⟨"X", false⟩)] []
    rfl rfl rfl rfl rfl rfl (by decide)
  rw [hm []]
  rfl

/-- C6: a descriptor subtype missing any one of the PARAMETERS, INPUTS,
or OUTPUTS mappings cannot be instantiated: every attempt fails with the
abstract-class definition error naming the missing mappings. -/
theorem claim_C6_abstract_descriptor (d : RawDescriptor)
    (h : d.PARAMETERS = none ∨ d.INPUTS = none ∨ d.OUTPUTS = none) :
    (∀ kwargs, ComponentSpec.new d kwargs = .error (.abstractClass (missingMappings d))) ∧
    missingMappings d ≠ [] := by
  constructor
  · intro kwargs
    cases hP : d.PARAMETERS with
    | none => simp [ComponentSpec.new, hP]
    | some rawP =>
      cases hI : d.INPUTS with
      | none => simp [ComponentSpec.new, hP, hI]
      | some rawI =>
        cases hO : d.OUTPUTS with
        | none => simp [ComponentSpec.new, hP, hI, hO]
        | some rawO =>
          rcases h with h | h | h
          · rw [hP] at h; exact Option.noConfusion h
          · rw [hI] at h; exact Option.noConfusion h
          · rw [hO] at h; exact Option.noConfusion h
  · rcases h with h | h | h
    · simp [missingMappings, h]
    · simp [missingMappings, h]
    · simp [missingMappings, h]

/-- Witness for C6: a descriptor without PARAMETERS fails at
instantiation with the abstract-class error. -/
theorem claim_C6_abstract_descriptor_witness :
    ComponentSpec.new { PARAMETERS := none, INPUTS := some [], OUTPUTS := some [] } [] =
      .error (.abstractClass ["PARAMETERS"]) :=
  (claim_C6_abstract_descriptor
    { PARAMETERS := none, INPUTS := some [], OUTPUTS := some [] } (Or.inl rfl)).1 []

/-- C7: a descriptor carrying a mapping value of the wrong kind (not a
component parameter at all, a ChannelParameter inside PARAMETERS, or an
ExecutionParameter inside INPUTS/OUTPUTS) always fails with a definition
error that identifies the expected spec kind, as the test's three wrong
descriptors show concretely. -/
theorem claim_C7_wrong_value_kind :
    (∀ (d : RawDescriptor) (kwargs : List (String × ArgValue))
       (rawP rawI rawO : List (String × RawSpecValue)) (n : String) (v : RawSpecValue),
      d.PARAMETERS = some rawP → d.INPUTS = some rawI → d.OUTPUTS = some rawO →
      (((n, v) ∈ rawP ∧ ∀ p, v ≠ RawSpecValue.execParam p) ∨
       ((n, v) ∈ rawI ∧ ∀ c, v ≠ RawSpecValue.channelParam c) ∨
       ((n, v) ∈ rawO ∧ ∀ c, v ≠ RawSpecValue.channelParam c)) →
      (expectedKindOf (ComponentSpec.new d kwargs)).isSome = true) ∧
    ComponentSpec.new wrongTypeSpecA [] =
      .error (.notComponentParameter "PARAMETERS" "x") ∧
    ComponentSpec.new wrongTypeSpecB [] =
      .error (.wrongSpecKind "PARAMETERS" "ExecutionParameter" "x") ∧
    ComponentSpec.new wrongTypeSpecC [] =
      .error (.wrongSpecKind "INPUTS" "ChannelParameter" "x") := by
  refine ⟨?_, rfl, rfl, rfl⟩
  intro d kwargs rawP rawI rawO n v hP hI hO hviol
  cases hcp : checkParamKinds rawP with
  | error e =>
    simp [ComponentSpec.new, hP, hI, hO, newBody, exbind, hcp, expectedKindOf]
    exact checkParamKinds_error_kind hcp
  | ok ps =>
    cases hci : checkChannelKinds "INPUTS" rawI with
    | error e =>
      simp [ComponentSpec.new, hP, hI, hO, newBody, exbind, hcp, hci, expectedKindOf]
      exact checkChannelKinds_error_kind hci
    | ok ins =>
      cases hco : checkChannelKinds "OUTPUTS" rawO with
      | error e =>
        simp [ComponentSpec.new, hP, hI, hO, newBody, exbind, hcp, hci, hco, expectedKindOf]
        exact checkChannelKinds_error_kind hco
      | ok outs =>
        exfalso
        rcases hviol with ⟨hm, hv⟩ | ⟨hm, hv⟩ | ⟨hm, hv⟩
        · obtain ⟨e, he⟩ := checkParamKinds_bad hv hm
          rw [he] at hcp
          exact Except.noConfusion hcp
        · obtain ⟨e, he⟩ := checkChannelKinds_bad "INPUTS" hv hm
          rw [he] at hci
          exact Except.noConfusion hci
        · obtain ⟨e, he⟩ := checkChannelKinds_bad "OUTPUTS" hv hm
          rw [he] at hco
          exact Except.noConfusion hco

/-- Witness for C7: the descriptor holding a ChannelParameter inside
PARAMETERS fails with an error naming an expected spec kind. -/
theorem claim_C7_wrong_value_kind_witness :
    (expectedKindOf (ComponentSpec.new wrongTypeSpecB [])).isSome = true :=
  claim_C7_wrong_value_kind.1 wrongTypeSpecB []
    [("x", RawSpecValue.channelParam ⟨"X", false⟩)] [] [] "x"
    (RawSpecValue.channelParam ⟨"X", false⟩) rfl rfl rfl
    (Or.inl ⟨by decide, fun p hp => RawSpecValue.noConfusion hp⟩)

/-- C8: in every successful instantiation, a supplied primitive parameter
value is stored unchanged in the execution properties, while a structured
value is stored as its canonical serialized string, never as the original
structured object. -/
theorem claim_C8_stored_forms (d : RawDescriptor) (kwargs : List (String × ArgValue))
    (inst : Instance) (rawP : List (String × RawSpecValue))
    (n : String) (q : ExecutionParameter) (v : ArgValue)
    (h : ComponentSpec.new d kwargs = .ok inst)
    (hPr : d.PARAMETERS = some rawP)
    (hm : (n, RawSpecValue.execParam q) ∈ rawP)
    (hk : lookupA n kwargs = some v) :
    lookupA n inst.exec_properties = some (storeParam v) ∧
    (∀ i, v = ArgValue.int i → lookupA n inst.exec_properties = some (ArgValue.int i)) ∧
    (∀ s, v = ArgValue.str s → lookupA n inst.exec_properties = some (ArgValue.str s)) ∧
    (∀ p, v = ArgValue.proto p →
      lookupA n inst.exec_properties = some (ArgValue.str (encodeProto p)) ∧
      ∀ p', lookupA n inst.exec_properties ≠ some (ArgValue.proto p')) := by
  obtain ⟨rawP', rawI', rawO', hP, hI, hO, hb⟩ := new_ok_inv h
  rw [hPr] at hP
  injection hP with hP
  subst hP
  obtain ⟨ps, ins, outs, ep, rins, routs, hps, hins, houts, hdup, hep, hrins, hrouts, hinst⟩ :=
    newBody_ok_inv hb
  subst hinst
  have hmem := checkParamKinds_ok_mem hps hm
  have hname : n ∈ ps.map Prod.fst := List.mem_map_of_mem _ hmem
  have hl := resolveParams_ok_lookup hk hep hname
  refine ⟨hl, ?_, ?_, ?_⟩
  · intro i hv; subst hv; exact hl
  · intro s hv; subst hv; exact hl
  · intro p hv
    subst hv
    refine ⟨hl, fun p' hc => ?_⟩
    rw [hl] at hc
    injection hc with hc
    exact ArgValue.noConfusion hc

/-- Witness for C8: `folds=10` is stored as the integer 10, untouched. -/
theorem claim_C8_stored_forms_witness :
    lookupA "folds" basicInstance.exec_properties = some (ArgValue.int 10) :=
  (claim_C8_stored_forms basicSpec basicKwargs basicInstance
    [("folds", RawSpecValue.execParam ⟨PType.int, false⟩),
     ("proto", RawSpecValue.execParam ⟨PType.proto, true⟩)]
    "folds" ⟨PType.int, false⟩ (ArgValue.int 10) rfl rfl (by decide) rfl).2.1 10 rfl

/-- C9: the empty descriptor — all three mappings declared and empty — is
valid, and instantiating it with no arguments succeeds, producing the
instance with three empty mappings. -/
theorem claim_C9_empty_descriptor :
    ComponentSpec.new emptySpec [] = .ok ⟨[], [], [], [], []⟩ := rfl

/-- C10: the error kinds map to the two concrete exception classes the
tests expect: parameter and channel value-type mismatches and
wrong-spec-subclass definition errors are TypeError, while
missing-argument errors, duplicate-name errors, and a mapping value that
is no component parameter at all are ValueError. -/
theorem claim_C10_error_classes :
    pyClassOf (ComponentSpec.new basicSpec
      [("folds", .str "string"), ("input", .channel inputChannel),
       ("output", .channel outputChannel)]) = some PyError.typeError ∧
    pyClassOf (ComponentSpec.new basicSpec
      [("folds", .int 10), ("input", .channel ⟨4, "WrongType"⟩),
       ("output", .channel outputChannel)]) = some PyError.typeError ∧
    pyClassOf (ComponentSpec.new wrongTypeSpecB []) = some PyError.typeError ∧
    pyClassOf (ComponentSpec.new wrongTypeSpecC []) = some PyError.typeError ∧
    pyClassOf (ComponentSpec.new wrongTypeSpecA []) = some PyError.valueError ∧
    pyClassOf (ComponentSpec.new dupSpec []) = some PyError.valueError ∧
    pyClassOf (ComponentSpec.new simpleSpec [("x", .int 10)]) = some PyError.valueError ∧
    pyClassOf (ComponentSpec.new simpleSpec [("z", .channel zChannel)]) =
      some PyError.valueError := by
  refine ⟨rfl, rfl, rfl, rfl, rfl, ?_, rfl, rfl⟩
  have : ComponentSpec.new dupSpec [] = .error (.duplicateArgument "x") := by
    simp [ComponentSpec.new, dupSpec, newBody, checkParamKinds, checkChannelKinds,
      exbind, checkNoDup, findDup]
  rw [this]
  rfl

end TFX
